import Mathlib

/-!
A shallow embedding of the `model` module of the forkify recipe browser
(`src/js/model.js`) and proofs about it.

Modelling conventions:
* JavaScript numbers are modelled as exact rationals (`ℚ`); the claims under
  study involve only small exact values where IEEE-754 doubles and rationals
  agree.
* A JavaScript ingredient `quantity` is `null`, a number, or `NaN` (the result
  of `Number` applied to a non-numeric string); this is the inductive
  `JSQuantity`.
* The mutable global `state` object is modelled as an explicit `ModelState`
  value threaded through each operation; `localStorage` under the single key
  `"bookmarks"` is modelled as the `storage` field holding the stored list
  (the JSON round-trip is taken as faithful).
* `async` functions that perform one `AJAX` call take the settled result of
  that call as an explicit `Except` parameter; a thrown error is an
  `Except.error` return value carrying the unchanged state.
* Division is the field division of `ℚ`; it agrees with JavaScript division
  whenever the divisor is non-zero, and theorems that involve division carry
  that hypothesis.
-/

namespace Forkify

/-- A JavaScript ingredient-quantity value: `null`, `NaN`, or a number. -/
inductive JSQuantity where
  | null : JSQuantity
  | nan : JSQuantity
  | num : ℚ → JSQuantity
deriving DecidableEq, Repr

/-- An ingredient record `{quantity, unit, description}`. -/
structure Ingredient where
  quantity : JSQuantity
  unit : String
  description : String
deriving DecidableEq, Repr

/-- The canonical internal recipe shape produced by `createRecipeObject`.
`key` is `none` when the optional user-key marker is absent; `bookmarked`
is `false` when the optional flag is absent (it is only ever read through
boolean tests and set to `true`/`false`). -/
structure Recipe where
  id : String
  title : String
  publisher : String
  sourceUrl : String
  image : String
  cookingTime : ℚ
  servings : ℚ
  ingredients : List Ingredient
  key : Option String
  bookmarked : Bool
deriving DecidableEq, Repr

/-- The raw API recipe shape (`res.data.recipe`): snake_case fields.
`cooking_time` and `servings` appear after JSON parsing as numbers (the
source's unary `+` coercion is the identity on numbers). -/
structure RawRecipe where
  id : String
  title : String
  publisher : String
  source_url : String
  image_url : String
  cooking_time : ℚ
  servings : ℚ
  ingredients : List Ingredient
  key : Option String
deriving DecidableEq, Repr

/-- A reduced search-result projection stored in `state.search.results`. -/
structure SearchResultSummary where
  id : String
  title : String
  publisher : String
  image : String
  key : Option String
deriving DecidableEq, Repr

/-- The `state.search` sub-object. `page` and `resultsPerPage` are
JavaScript numbers that only ever hold integers, modelled as `Int`. -/
structure SearchState where
  query : String
  results : List SearchResultSummary
  resultsPerPage : Int
  page : Int
deriving DecidableEq, Repr

/-- The global `state` object plus the `localStorage` key `"bookmarks"`.
`recipe = none` models the initial empty object `{}` in the current-recipe
slot. -/
structure ModelState where
  recipe : Option Recipe
  search : SearchState
  bookmarks : List Recipe
  storage : Option (List Recipe)
deriving DecidableEq, Repr

/-- A failure of the network client (`AJAX`): the timeout or a non-success
HTTP status. -/
inductive NetErr where
  | timeout : NetErr
  | http : String → Nat → NetErr
deriving DecidableEq, Repr

/-- `createRecipeObject(data)`: field renames and coercions; the spread
`...(data.key && { key: data.key })` includes the key only when it is
present and truthy (a present empty string is falsy and omitted). -/
def createRecipeObject (data : RawRecipe) : Recipe :=
  { id := data.id
    title := data.title
    publisher := data.publisher
    sourceUrl := data.source_url
    image := data.image_url
    cookingTime := data.cooking_time
    servings := data.servings
    ingredients := data.ingredients
    key := match data.key with
      | some k => if k = "" then none else some k
      | none => none
    bookmarked := false }

/-- `getRecipe(id)`: on success installs the normalized recipe as the
current recipe and sets its `bookmarked` flag by membership of `id` in the
bookmark list; on failure rethrows and touches nothing. `response` is the
settled result of the `AJAX` call. -/
def getRecipe (st : ModelState) (id : String)
    (response : Except NetErr RawRecipe) : Except NetErr Unit × ModelState :=
  match response with
  | .error e => (.error e, st)
  | .ok raw =>
      let r := createRecipeObject raw
      let r := { r with bookmarked := st.bookmarks.any (fun b => b.id = id) }
      (.ok (), { st with recipe := some r })

/-- JavaScript `Array.prototype.slice(start, end)`: negative indices count
from the end, both indices are clamped to `[0, length]`, and the elements
in `[start, end)` are returned. -/
def jsSlice {α : Type} (l : List α) (start stop : Int) : List α :=
  let len : Int := l.length
  let s : Int := if start < 0 then max (len + start) 0 else min start len
  let e : Int := if stop < 0 then max (len + stop) 0 else min stop len
  (l.take e.toNat).drop s.toNat

/-- `getSearchResultsPage(page = state.search.page)`: records `page` as the
current page, then returns `results.slice((page-1)*rpp, page*rpp)`.
`none` models a call without an argument. -/
def getSearchResultsPage (st : ModelState) (pageArg : Option Int) :
    List SearchResultSummary × ModelState :=
  let page := pageArg.getD st.search.page
  let st := { st with search := { st.search with page := page } }
  let start := (page - 1) * st.search.resultsPerPage
  let stop := page * st.search.resultsPerPage
  (jsSlice st.search.results start stop, st)

/-- The body of the `forEach` in `updateServings`:
`ing.quantity = (ing.quantity * newServings) / state.recipe.servings`.
JavaScript coerces `null` to `0` in the multiplication and propagates `NaN`;
the `ℚ` division agrees with JavaScript for a non-zero divisor. -/
def scaleQuantity (q : JSQuantity) (newServings servings : ℚ) : JSQuantity :=
  match q with
  | .nan => .nan
  | .null => .num (0 * newServings / servings)
  | .num x => .num (x * newServings / servings)

/-- `updateServings(newServings)` restricted to the current recipe: every
quantity is reassigned using the pre-update `servings` (the loop runs before
`state.recipe.servings = newServings`). -/
def updateServingsRecipe (r : Recipe) (newServings : ℚ) : Recipe :=
  { r with
    ingredients := r.ingredients.map fun ing =>
      { ing with quantity := scaleQuantity ing.quantity newServings r.servings }
    servings := newServings }

/-- `updateServings(newServings)` on the whole state. With no current recipe
the source would fault reading `.ingredients` of `{}`; that case is outside
every claim and modelled as the identity. -/
def updateServings (st : ModelState) (newServings : ℚ) : ModelState :=
  match st.recipe with
  | some r => { st with recipe := some (updateServingsRecipe r newServings) }
  | none => st

/-- `storeBookmarks()`: overwrite the `"bookmarks"` storage key with the
whole bookmark list. -/
def storeBookmarks (st : ModelState) : ModelState :=
  { st with storage := some st.bookmarks }

/-- `addBookmark(recipe)`: push onto `state.bookmarks`, flag the current
recipe when the ids match, persist. -/
def addBookmark (st : ModelState) (recipe : Recipe) : ModelState :=
  let st := { st with bookmarks := st.bookmarks ++ [recipe] }
  let st := match st.recipe with
    | some cur =>
        if recipe.id = cur.id then
          { st with recipe := some { cur with bookmarked := true } }
        else st
    | none => st
  storeBookmarks st

/-- JavaScript `Array.prototype.findIndex`: index of the first match, `-1`
when there is none. -/
def jsFindIndex {α : Type} (l : List α) (p : α → Bool) : Int :=
  match l with
  | [] => -1
  | x :: rest =>
      if p x then 0
      else
        let r := jsFindIndex rest p
        if r = -1 then -1 else r + 1

/-- JavaScript `Array.prototype.splice(index, 1)`: the start index is
clamped (negative values count from the end), and one element is removed
there when one exists. -/
def jsSpliceRemoveOne {α : Type} (l : List α) (index : Int) : List α :=
  let len : Int := l.length
  let s : Int := if index < 0 then max (len + index) 0 else min index len
  l.take s.toNat ++ l.drop (s.toNat + 1)

/-- `deleteBookmark(recipe)`: remove at the `findIndex` of the first entry
with a matching id (which is `-1` when absent), unflag the current recipe
when the ids match, persist. -/
def deleteBookmark (st : ModelState) (recipe : Recipe) : ModelState :=
  let index := jsFindIndex st.bookmarks (fun b => b.id = recipe.id)
  let st := { st with bookmarks := jsSpliceRemoveOne st.bookmarks index }
  let st := match st.recipe with
    | some cur =>
        if recipe.id = cur.id then
          { st with recipe := some { cur with bookmarked := false } }
        else st
    | none => st
  storeBookmarks st

/-- `str.replaceAll(' ', '')` at character level: delete every space. -/
def removeSpaces (cs : List Char) : List Char :=
  cs.filter fun c => c ≠ ' '

/-- `str.split(sep)` for a single-character separator, at character level:
`"".split(',')` is `[""]`, and separators at the ends produce empty
tokens, exactly as in JavaScript. -/
def splitOnChar (sep : Char) : List Char → List (List Char)
  | [] => [[]]
  | c :: rest =>
      let r := splitOnChar sep rest
      if c = sep then [] :: r
      else
        match r with
        | h :: t => (c :: h) :: t
        | [] => [[c]]

/-- The value of a digit string, accumulated left to right. -/
def digitsVal (cs : List Char) : Nat :=
  cs.foldl (fun acc c => acc * 10 + (c.toNat - 48)) 0

/-- The magnitude of an unsigned decimal numeral: decimal digits with an
optional fractional part (either side of the dot may be empty but not
both); `none` for anything else. -/
def jsNumMag (cs : List Char) : Option ℚ :=
  let intPart := cs.takeWhile fun c => c.isDigit
  let rest := cs.dropWhile fun c => c.isDigit
  match rest with
  | [] =>
      if intPart.isEmpty then none
      else some (digitsVal intPart : ℚ)
  | '.' :: fracPart =>
      if (fracPart.all fun c => c.isDigit) &&
          (!intPart.isEmpty || !fracPart.isEmpty) then
        some ((digitsVal intPart : ℚ) +
          (digitsVal fracPart : ℚ) / 10 ^ fracPart.length)
      else none
  | _ => none

/-- `Number(str)` on the strings this application produces: an optional
sign followed by a decimal numeral gives a number; the empty string gives
`0`; anything else — including the exponent, hexadecimal and `Infinity`
syntaxes, which cannot reach this call — gives `NaN`. -/
def jsNumber (s : String) : JSQuantity :=
  match s.data with
  | [] => .num 0
  | '-' :: t =>
      match jsNumMag t with
      | some v => .num (-v)
      | none => .nan
  | '+' :: t =>
      match jsNumMag t with
      | some v => .num v
      | none => .nan
  | cs =>
      match jsNumMag cs with
      | some v => .num v
      | none => .nan

/-- The message of the error thrown on a malformed ingredient field. -/
def wrongFormatMsg : String :=
  "Wrong ingredient format! Please use the correct format (quantity,unit,description)."

/-- The token list `value.replaceAll(' ', '').split(',')` of one
ingredient field value in `src/js/model.js`. -/
def ingredientTokens (value : String) : List String :=
  (splitOnChar ',' (removeSpaces value.data)).map List.asString

/-- The `.map` body of `uploadRecipe` in `src/js/model.js`, for one
ingredient field value: compute the tokens, throw unless there are exactly
three, then build
`{quantity: quantity ? Number(quantity) : null, unit, description}`. -/
def parseIngredientField (value : String) : Except String Ingredient :=
  match ingredientTokens value with
  | [quantity, u, d] =>
      .ok { quantity := if quantity = "" then .null else jsNumber quantity
            unit := u
            description := d }
  | _ => .error wrongFormatMsg

/-- `s.startsWith(p)` at character level: the first `p.length` characters
of `s` are exactly `p`. -/
def strStartsWith (s p : String) : Bool :=
  s.data.take p.data.length = p.data

/-- The ingredient fields of the upload form: entries whose name starts
with `ingredient` and whose value is non-empty, in insertion order
(`Object.entries` order for these string-keyed fields). -/
def ingredientEntries (form : List (String × String)) :
    List (String × String) :=
  form.filter fun e => strStartsWith e.1 "ingredient" && e.2 ≠ ""

/-- The semantics of `.map` over a throwing callback: apply in order,
the first throw aborting the whole traversal. -/
def mapOrThrow {α β : Type} (f : α → Except String β) :
    List α → Except String (List β)
  | [] => .ok []
  | x :: rest =>
      match f x with
      | .error e => .error e
      | .ok y =>
          match mapOrThrow f rest with
          | .error e => .error e
          | .ok ys => .ok (y :: ys)

/-- The ingredient-parsing pass of `uploadRecipe`: parse each ingredient
field in order, stopping at the first throw. -/
def parseIngredients (form : List (String × String)) :
    Except String (List Ingredient) :=
  mapOrThrow (fun e => parseIngredientField e.2) (ingredientEntries form)

/-- A failure of `uploadRecipe`: the ingredient-format throw or a network
failure, both rethrown verbatim. -/
inductive UploadErr where
  | validation : String → UploadErr
  | network : NetErr → UploadErr
deriving DecidableEq, Repr

/-- `uploadRecipe(newRecipe)`: validate and parse the ingredient fields,
then (the outbound payload having no effect on the store) consume the
settled `AJAX` result: on success install the normalized response recipe
as the current recipe and bookmark it; on any failure rethrow with the
store untouched. -/
def uploadRecipe (st : ModelState) (form : List (String × String))
    (response : Except NetErr RawRecipe) :
    Except UploadErr Unit × ModelState :=
  match parseIngredients form with
  | .error e => (.error (.validation e), st)
  | .ok _ =>
      match response with
      | .error e => (.error (.network e), st)
      | .ok raw =>
          let r := createRecipeObject raw
          let st := { st with recipe := some r }
          (.ok (), addBookmark st r)

/-! Concrete fixtures used by witnesses and counterexamples. -/

/-- A search-result summary with a given id. -/
def sampleSummary (i : String) : SearchResultSummary :=
  { id := i, title := i, publisher := "p", image := "img", key := none }

/-- A three-result search state with two results per page. -/
def sampleSearch : SearchState :=
  { query := "pizza"
    results := [sampleSummary "r1", sampleSummary "r2", sampleSummary "r3"]
    resultsPerPage := 2
    page := 1 }

/-- A recipe with a given id, servings count and ingredient list. -/
def sampleRecipe (i : String) (s : ℚ) (ings : List Ingredient) : Recipe :=
  { id := i, title := "t", publisher := "p", sourceUrl := "u", image := "im"
    cookingTime := 30, servings := s, ingredients := ings, key := none
    bookmarked := false }

/-- A raw API recipe with a given id. -/
def sampleRaw (i : String) : RawRecipe :=
  { id := i, title := "t", publisher := "p", source_url := "u"
    image_url := "im", cooking_time := 30, servings := 4
    ingredients := [], key := none }

/-- A baseline state: no current recipe, the sample search, no bookmarks. -/
def sampleState : ModelState :=
  { recipe := none, search := sampleSearch, bookmarks := [], storage := none }

/-! Helper lemmas. -/

/-- For non-negative in-order indices, `slice` is drop-then-take. -/
theorem jsSlice_nonneg {α : Type} (l : List α) (a b : Int)
    (ha : 0 ≤ a) (hab : a ≤ b) :
    jsSlice l a b = (l.drop a.toNat).take (b.toNat - a.toNat) := by
  have hb : 0 ≤ b := le_trans ha hab
  simp only [jsSlice]
  rw [if_neg (by omega), if_neg (by omega)]
  have hminb : l.take (min b (l.length : Int)).toNat = l.take b.toNat := by
    rcases le_total b (l.length : Int) with h | h
    · rw [min_eq_left h]
    · rw [min_eq_right h]
      rw [List.take_of_length_le (by omega), List.take_of_length_le (by omega)]
  rw [hminb]
  have hmina : (l.take b.toNat).drop (min a (l.length : Int)).toNat =
      (l.take b.toNat).drop a.toNat := by
    rcases le_total a (l.length : Int) with h | h
    · rw [min_eq_left h]
    · rw [min_eq_right h]
      have hlen : (l.take b.toNat).length ≤ ((l.length : Int)).toNat := by
        simp [List.length_take]
      rw [List.drop_eq_nil_of_le hlen, List.drop_eq_nil_of_le (le_trans hlen (by omega))]
  rw [hmina]
  rw [List.take_drop]
  have hsum : a.toNat + (b.toNat - a.toNat) = b.toNat := by omega
  rw [hsum]

/-- Claim C1: for every results sequence, page size and page `p ≥ 1`,
`getSearchResultsPage(p)` stores `p` as the current page (also when `p` is
the value already stored) and returns the half-open slice
`results[(p-1)*pageSize : p*pageSize]`; when that window starts at or past
the end of the results, the returned sequence is empty (and being a total
function, the slice raises no bounds error). -/
theorem getSearchResultsPage_spec (st : ModelState) (p : Int)
    (hp : 1 ≤ p) (hrpp : 0 ≤ st.search.resultsPerPage) :
    ((getSearchResultsPage st (some p)).2.search.page = p) ∧
    ((getSearchResultsPage st (some p)).1 =
      (st.search.results.drop ((p - 1) * st.search.resultsPerPage).toNat).take
        st.search.resultsPerPage.toNat) ∧
    (st.search.results.length ≤ ((p - 1) * st.search.resultsPerPage).toNat →
      (getSearchResultsPage st (some p)).1 = []) := by
  have ha : 0 ≤ (p - 1) * st.search.resultsPerPage :=
    mul_nonneg (by omega) hrpp
  have hab : (p - 1) * st.search.resultsPerPage ≤ p * st.search.resultsPerPage :=
    mul_le_mul_of_nonneg_right (by omega) hrpp
  have hsum : p * st.search.resultsPerPage =
      (p - 1) * st.search.resultsPerPage + st.search.resultsPerPage := by ring
  have hmain : (getSearchResultsPage st (some p)).1 =
      (st.search.results.drop ((p - 1) * st.search.resultsPerPage).toNat).take
        st.search.resultsPerPage.toNat := by
    show jsSlice st.search.results ((p - 1) * st.search.resultsPerPage)
        (p * st.search.resultsPerPage) = _
    rw [jsSlice_nonneg _ _ _ ha hab]
    have : (p * st.search.resultsPerPage).toNat -
        ((p - 1) * st.search.resultsPerPage).toNat =
        st.search.resultsPerPage.toNat := by omega
    rw [this]
  refine ⟨rfl, hmain, fun hlen => ?_⟩
  rw [hmain, List.drop_eq_nil_of_le hlen, List.take_nil]

/-- Witness for C1 at the sample state, page 2 of 3 results with page
size 2. -/
theorem getSearchResultsPage_spec_witness :
    ((1 : Int) ≤ 2 ∧ 0 ≤ sampleState.search.resultsPerPage) ∧
    ((getSearchResultsPage sampleState (some 2)).2.search.page = 2) ∧
    ((getSearchResultsPage sampleState (some 2)).1 =
      (sampleState.search.results.drop
        (((2 : Int) - 1) * sampleState.search.resultsPerPage).toNat).take
        sampleState.search.resultsPerPage.toNat) ∧
    (sampleState.search.results.length ≤
        (((2 : Int) - 1) * sampleState.search.resultsPerPage).toNat →
      (getSearchResultsPage sampleState (some 2)).1 = []) :=
  ⟨⟨by decide, by decide⟩, getSearchResultsPage_spec sampleState 2 (by decide) (by decide)⟩

/-- Claim C8: on a successful fetch, `getRecipe` installs the normalized
recipe as the current recipe, its `bookmarked` flag being the membership
test of `id` among the bookmark ids; the flag is `true` iff some bookmark
entry's identifier equals `id`. -/
theorem getRecipe_success_installs (st : ModelState) (id : String)
    (raw : RawRecipe) :
    (getRecipe st id (.ok raw) =
      (.ok (),
        { st with
          recipe := some
            { createRecipeObject raw with
              bookmarked := st.bookmarks.any (fun b => b.id = id) } })) ∧
    ((st.bookmarks.any fun b => b.id = id) = true ↔
      ∃ b ∈ st.bookmarks, b.id = id) := by
  refine ⟨rfl, ?_⟩
  simp [List.any_eq_true]

/-- Claim C9: a network failure during `getRecipe` is rethrown unchanged
and the state — in particular the current-recipe slot — is untouched. -/
theorem getRecipe_failure_preserves_state (st : ModelState) (id : String)
    (e : NetErr) :
    getRecipe st id (.error e) = (.error e, st) := rfl

/-- The ingredient quantities of the current recipe, when there is one. -/
def quantities (st : ModelState) : Option (List JSQuantity) :=
  st.recipe.map fun r => r.ingredients.map Ingredient.quantity

/-- A one-ingredient recipe for four servings with quantity 2. -/
def servRecipe : Recipe :=
  sampleRecipe "r" 4 [{ quantity := .num 2, unit := "kg", description := "flour" }]

/-- A state whose current recipe is `servRecipe`. -/
def servState : ModelState := { sampleState with recipe := some servRecipe }

/-- Claim C2: with a current recipe of non-zero servings `s_old`,
`updateServings ns` turns every ingredient quantity `num q` into
`num (q * ns / s_old)` (the divisor being the pre-update servings, units
and descriptions untouched) and then sets the servings field to `ns`. -/
theorem updateServings_rescales (st : ModelState) (r : Recipe) (ns : ℚ)
    (hr : st.recipe = some r) (hs : r.servings ≠ 0) :
    ∃ r', (updateServings st ns).recipe = some r' ∧
      r'.servings = ns ∧
      r'.ingredients.length = r.ingredients.length ∧
      ∀ (i : Nat) (ing : Ingredient), r.ingredients[i]? = some ing →
        ∀ q : ℚ, ing.quantity = .num q →
        ∃ ing' : Ingredient, r'.ingredients[i]? = some ing' ∧
          ing'.quantity = .num (q * ns / r.servings) ∧
          ing'.unit = ing.unit ∧ ing'.description = ing.description := by
  refine ⟨updateServingsRecipe r ns, by simp [updateServings, hr], rfl, ?_, ?_⟩
  · simp [updateServingsRecipe]
  · intro i ing hi q hq
    refine ⟨{ ing with quantity := scaleQuantity ing.quantity ns r.servings },
      ?_, ?_, rfl, rfl⟩
    · simp [updateServingsRecipe, hi]
    · rw [hq]
      simp [scaleQuantity]

/-- Witness for C2: rescaling the sample recipe from 4 to 8 servings turns
quantity 2 into 4, and rescaling the result from 8 to 2 turns 4 into 1. -/
theorem updateServings_rescales_witness :
    (servState.recipe = some servRecipe ∧ servRecipe.servings ≠ 0) ∧
    (∃ r', (updateServings servState 8).recipe = some r' ∧
      r'.servings = 8 ∧
      r'.ingredients.length = servRecipe.ingredients.length ∧
      ∀ (i : Nat) (ing : Ingredient), servRecipe.ingredients[i]? = some ing →
        ∀ q : ℚ, ing.quantity = .num q →
        ∃ ing' : Ingredient, r'.ingredients[i]? = some ing' ∧
          ing'.quantity = .num (q * 8 / servRecipe.servings) ∧
          ing'.unit = ing.unit ∧ ing'.description = ing.description) ∧
    quantities (updateServings servState 8) = some [JSQuantity.num 4] ∧
    quantities (updateServings (updateServings servState 8) 2) =
      some [JSQuantity.num 1] :=
  ⟨⟨rfl, by norm_num [servRecipe, sampleRecipe]⟩,
    updateServings_rescales servState servRecipe 8 rfl
      (by norm_num [servRecipe, sampleRecipe]),
    by
      simp [quantities, updateServings, updateServingsRecipe, servState,
        servRecipe, sampleRecipe, sampleState, scaleQuantity]
      norm_num,
    by
      simp [quantities, updateServings, updateServingsRecipe, servState,
        servRecipe, sampleRecipe, sampleState, scaleQuantity]
      norm_num⟩

/-- A one-ingredient recipe for four servings with a null quantity. -/
def nullRecipe : Recipe :=
  sampleRecipe "r" 4 [{ quantity := .null, unit := "kg", description := "flour" }]

/-- A state whose current recipe is `nullRecipe`. -/
def nullState : ModelState := { sampleState with recipe := some nullRecipe }

/-- Counterexample to claim C3: on a 4-serving recipe with one quantity-less
ingredient, `updateServings 8` turns the null quantity into the number 0
(the arithmetic coerces null to 0); it does not stay null. -/
theorem updateServings_null_counterexample :
    quantities nullState = some [JSQuantity.null] ∧
    quantities (updateServings nullState 8) = some [JSQuantity.num 0] ∧
    JSQuantity.num 0 ≠ JSQuantity.null := by
  refine ⟨rfl, ?_, by simp⟩
  simp [quantities, updateServings, updateServingsRecipe, nullState,
    nullRecipe, sampleRecipe, sampleState, scaleQuantity]

/-- Claim C3 amended: an ingredient whose quantity is null before
`updateServings` has quantity `num 0` afterwards (with non-zero pre-update
servings) — the scaling arithmetic coerces null to the number 0 rather than
leaving it null. -/
theorem updateServings_null_becomes_zero (st : ModelState) (r : Recipe)
    (ns : ℚ) (hr : st.recipe = some r) (hs : r.servings ≠ 0) :
    ∃ r', (updateServings st ns).recipe = some r' ∧
      ∀ (i : Nat) (ing : Ingredient), r.ingredients[i]? = some ing →
        ing.quantity = .null →
        ∃ ing' : Ingredient, r'.ingredients[i]? = some ing' ∧
          ing'.quantity = .num 0 := by
  refine ⟨updateServingsRecipe r ns, by simp [updateServings, hr], ?_⟩
  intro i ing hi hq
  refine ⟨{ ing with quantity := scaleQuantity ing.quantity ns r.servings },
    by simp [updateServingsRecipe, hi], ?_⟩
  rw [hq]
  simp [scaleQuantity]

/-- Witness for the amended C3 at the sample null-quantity state. -/
theorem updateServings_null_becomes_zero_witness :
    (nullState.recipe = some nullRecipe ∧ nullRecipe.servings ≠ 0) ∧
    (∃ r', (updateServings nullState 8).recipe = some r' ∧
      ∀ (i : Nat) (ing : Ingredient), nullRecipe.ingredients[i]? = some ing →
        ing.quantity = .null →
        ∃ ing' : Ingredient, r'.ingredients[i]? = some ing' ∧
          ing'.quantity = .num 0) :=
  ⟨⟨rfl, by norm_num [nullRecipe, sampleRecipe]⟩,
    updateServings_null_becomes_zero nullState nullRecipe 8 rfl
      (by norm_num [nullRecipe, sampleRecipe])⟩

/-- `splitOnChar` always returns at least one token. -/
theorem splitOnChar_ne_nil (sep : Char) (cs : List Char) :
    splitOnChar sep cs ≠ [] := by
  induction cs with
  | nil => simp [splitOnChar]
  | cons x t ih =>
      simp only [splitOnChar]
      by_cases hx : x = sep
      · simp [hx]
      · rw [if_neg hx]
        cases h : splitOnChar sep t with
        | nil => simp
        | cons a b => simp

/-- Every character of every token of `splitOnChar` is a character of the
input. -/
theorem mem_of_mem_splitOnChar (sep : Char) (cs : List Char)
    (tok : List Char) (htok : tok ∈ splitOnChar sep cs) :
    ∀ c ∈ tok, c ∈ cs := by
  induction cs generalizing tok with
  | nil =>
      simp only [splitOnChar, List.mem_singleton] at htok
      subst htok
      simp
  | cons x t ih =>
      simp only [splitOnChar] at htok
      by_cases hx : x = sep
      · rw [if_pos hx] at htok
        rcases List.mem_cons.mp htok with h | h
        · subst h
          simp
        · intro c hc
          exact List.mem_cons_of_mem _ (ih tok h c hc)
      · rw [if_neg hx] at htok
        cases hr : splitOnChar sep t with
        | nil => exact absurd hr (splitOnChar_ne_nil sep t)
        | cons h0 t2 =>
            rw [hr] at htok
            rcases List.mem_cons.mp htok with h | h
            · subst h
              intro c hc
              rcases List.mem_cons.mp hc with h | h
              · subst h
                simp
              · refine List.mem_cons_of_mem _ ?_
                refine ih h0 ?_ c h
                rw [hr]
                exact List.mem_cons_self _ _
            · intro c hc
              refine List.mem_cons_of_mem _ ?_
              refine ih tok ?_ c hc
              rw [hr]
              exact List.mem_cons_of_mem _ h

/-- No character of `removeSpaces cs` is a space. -/
theorem not_space_of_mem_removeSpaces (cs : List Char) (c : Char)
    (hc : c ∈ removeSpaces cs) : c ≠ ' ' := by
  have := (List.mem_filter.mp hc).2
  simpa using this

/-- Claim C4: `uploadRecipe` parses each non-empty ingredient field value
into exactly three comma-separated tokens; a non-empty quantity token is
converted with `Number`, an empty one becomes null; any other token count
throws the wrong-format error. Concretely, `"2,kg,flour"` produces
`{quantity: 2, unit: "kg", description: "flour"}` and `"kg,flour"` throws. -/
theorem uploadRecipe_ingredient_parsing :
    (∀ v q u d : String, ingredientTokens v = [q, u, d] →
        parseIngredientField v =
          .ok { quantity := if q = "" then JSQuantity.null else jsNumber q
                unit := u, description := d }) ∧
    (∀ v : String, (ingredientTokens v).length ≠ 3 →
        parseIngredientField v = .error wrongFormatMsg) ∧
    (parseIngredientField "2,kg,flour" =
      .ok { quantity := .num 2, unit := "kg", description := "flour" }) ∧
    (parseIngredientField "kg,flour" = .error wrongFormatMsg) := by
  refine ⟨?_, ?_, rfl, rfl⟩
  · intro v q u d h
    unfold parseIngredientField
    rw [h]
  · intro v h
    unfold parseIngredientField
    rcases hsp : ingredientTokens v with _ | ⟨a, _ | ⟨b, _ | ⟨c, _ | ⟨e, t⟩⟩⟩⟩
    · rfl
    · rfl
    · rfl
    · exact absurd (by rw [hsp]; rfl) h
    · rfl

/-- Witness for C4 at the concrete field values of the claim. -/
theorem uploadRecipe_ingredient_parsing_witness :
    (ingredientTokens "2,kg,flour" = ["2", "kg", "flour"]) ∧
    (parseIngredientField "2,kg,flour" =
      .ok { quantity := if "2" = "" then JSQuantity.null else jsNumber "2"
            unit := "kg", description := "flour" }) ∧
    ((ingredientTokens "kg,flour").length ≠ 3) ∧
    (parseIngredientField "kg,flour" = .error wrongFormatMsg) :=
  ⟨rfl, uploadRecipe_ingredient_parsing.1 "2,kg,flour" "2" "kg" "flour" rfl,
    by decide,
    uploadRecipe_ingredient_parsing.2.1 "kg,flour" (by decide)⟩

/-- Counterexample to claim C5: the field value
`"2, olive oil, pasta sauce"` stores unit `"oliveoil"` and description
`"pastasauce"` — the whitespace interior to the multi-word tokens is not
preserved. -/
theorem interior_whitespace_counterexample :
    (parseIngredientField "2, olive oil, pasta sauce" =
      .ok { quantity := .num 2, unit := "oliveoil"
            description := "pastasauce" }) ∧
    ("oliveoil" ≠ "olive oil") ∧ ("pastasauce" ≠ "pasta sauce") :=
  ⟨rfl, by decide, by decide⟩

/-- Claim C5 amended: the three tokens of an accepted ingredient field are
obtained by deleting every space character from the value and then
splitting on commas, so no stored token contains any whitespace — interior
whitespace of a multi-word unit or description is removed, not
preserved. -/
theorem uploadRecipe_tokens_spacefree (v : String) (ing : Ingredient)
    (h : parseIngredientField v = .ok ing) :
    ∃ qtok : String, ingredientTokens v = [qtok, ing.unit, ing.description] ∧
      (∀ c ∈ ing.unit.data, c ≠ ' ') ∧
      (∀ c ∈ ing.description.data, c ≠ ' ') := by
  unfold parseIngredientField at h
  rcases hscs : splitOnChar ',' (removeSpaces v.data)
    with _ | ⟨la, _ | ⟨lb, _ | ⟨lc, _ | ⟨ld, t⟩⟩⟩⟩ <;>
    rw [show ingredientTokens v =
        (splitOnChar ',' (removeSpaces v.data)).map List.asString from rfl,
      hscs] at h <;>
    simp only [List.map] at h
  · exact absurd h (by simp)
  · exact absurd h (by simp)
  · exact absurd h (by simp)
  · rcases Except.ok.inj h with hing
    refine ⟨List.asString la, ?_, ?_, ?_⟩
    · rw [show ingredientTokens v =
          (splitOnChar ',' (removeSpaces v.data)).map List.asString from rfl,
        hscs, ← hing]
      rfl
    · intro c hc
      refine not_space_of_mem_removeSpaces v.data c ?_
      refine mem_of_mem_splitOnChar ',' (removeSpaces v.data) lb ?_ c ?_
      · rw [hscs]
        exact List.mem_cons_of_mem _ (List.mem_cons_self _ _)
      · rw [← hing] at hc
        exact hc
    · intro c hc
      refine not_space_of_mem_removeSpaces v.data c ?_
      refine mem_of_mem_splitOnChar ',' (removeSpaces v.data) lc ?_ c ?_
      · rw [hscs]
        exact List.mem_cons_of_mem _
          (List.mem_cons_of_mem _ (List.mem_cons_self _ _))
      · rw [← hing] at hc
        exact hc
  · exact absurd h (by simp)

/-- Witness for the amended C5 at the multi-word field value. -/
theorem uploadRecipe_tokens_spacefree_witness :
    (parseIngredientField "2, olive oil, pasta sauce" =
      .ok { quantity := .num 2, unit := "oliveoil"
            description := "pastasauce" }) ∧
    (∃ qtok : String, ingredientTokens "2, olive oil, pasta sauce" =
        [qtok, "oliveoil", "pastasauce"] ∧
      (∀ c ∈ "oliveoil".data, c ≠ ' ') ∧
      (∀ c ∈ "pastasauce".data, c ≠ ' ')) :=
  ⟨rfl, uploadRecipe_tokens_spacefree "2, olive oil, pasta sauce"
    { quantity := .num 2, unit := "oliveoil", description := "pastasauce" }
    rfl⟩

/-- `mapOrThrow` throws whenever some element of the list throws. -/
theorem mapOrThrow_error_of_mem {α β : Type} (f : α → Except String β)
    (l : List α) (a : α) (ha : a ∈ l) (e : String) (he : f a = .error e) :
    ∃ e', mapOrThrow f l = .error e' := by
  induction l with
  | nil => cases ha
  | cons x t ih =>
      rcases List.mem_cons.mp ha with h | h
      · subst h
        exact ⟨e, by simp [mapOrThrow, he]⟩
      · cases hfx : f x with
        | error e2 => exact ⟨e2, by simp [mapOrThrow, hfx]⟩
        | ok y =>
            obtain ⟨e', he'⟩ := ih h
            exact ⟨e', by simp [mapOrThrow, hfx, he']⟩

/-- Claim C7: when some non-empty ingredient field of the form fails to
parse, `uploadRecipe` rethrows the validation error and the state —
current recipe, search state and bookmark sequence alike — is exactly the
state before the call, whatever the network would have answered. -/
theorem uploadRecipe_validation_no_mutation (st : ModelState)
    (form : List (String × String)) (response : Except NetErr RawRecipe)
    (h : ∃ p ∈ ingredientEntries form, ∃ e,
      parseIngredientField p.2 = .error e) :
    ∃ e, uploadRecipe st form response = (.error (.validation e), st) := by
  obtain ⟨p, hp, e, he⟩ := h
  obtain ⟨e', he'⟩ :=
    mapOrThrow_error_of_mem (fun q => parseIngredientField q.2) _ p hp e he
  exact ⟨e', by simp [uploadRecipe, parseIngredients, he']⟩

/-- A one-field form whose ingredient value has only two tokens. -/
def badForm : List (String × String) := [("ingredient-1", "kg,flour")]

/-- Witness for C7: the two-token form fails validation and leaves the
sample state untouched even though the network response was a success. -/
theorem uploadRecipe_validation_no_mutation_witness :
    (∃ p ∈ ingredientEntries badForm, ∃ e,
      parseIngredientField p.2 = .error e) ∧
    (∃ e, uploadRecipe sampleState badForm (.ok (sampleRaw "r")) =
      (.error (.validation e), sampleState)) :=
  ⟨⟨("ingredient-1", "kg,flour"), by decide, wrongFormatMsg, rfl⟩,
    uploadRecipe_validation_no_mutation sampleState badForm
      (.ok (sampleRaw "r"))
      ⟨("ingredient-1", "kg,flour"), by decide, wrongFormatMsg, rfl⟩⟩

/-- `findIndex` on a list with no match is `-1`. -/
theorem jsFindIndex_eq_neg_one {α : Type} (l : List α) (p : α → Bool)
    (h : ∀ b ∈ l, p b = false) : jsFindIndex l p = -1 := by
  induction l with
  | nil => rfl
  | cons x t ih =>
      have hx := h x (List.mem_cons_self x t)
      have ht := ih fun b hb => h b (List.mem_cons_of_mem x hb)
      simp [jsFindIndex, hx, ht]

/-- `findIndex` finds an appended element at the old length when nothing
before it matches. -/
theorem jsFindIndex_append_last {α : Type} (l : List α) (x : α)
    (p : α → Bool) (h : ∀ b ∈ l, p b = false) (hx : p x = true) :
    jsFindIndex (l ++ [x]) p = (l.length : Int) := by
  induction l with
  | nil => simp [jsFindIndex, hx]
  | cons y t ih =>
      have hy := h y (List.mem_cons_self y t)
      have ht := ih fun b hb => h b (List.mem_cons_of_mem y hb)
      have hcond : ¬((t.length : Int) = -1) := by omega
      simp only [List.cons_append, jsFindIndex, hy, Bool.false_eq_true,
        if_false, ht, if_neg hcond]
      simp [List.length_cons]
      omega

/-- `addBookmark` appends to the bookmark list, persists the appended
list, and leaves the search state alone. -/
theorem addBookmark_fields (st : ModelState) (r : Recipe) :
    ((addBookmark st r).bookmarks = st.bookmarks ++ [r]) ∧
    ((addBookmark st r).storage = some (st.bookmarks ++ [r])) ∧
    ((addBookmark st r).search = st.search) := by
  unfold addBookmark storeBookmarks
  rcases hrec : st.recipe with _ | cur
  · simp [hrec]
  · by_cases hid : r.id = cur.id <;> simp [hrec, hid]

/-- `deleteBookmark` splices the bookmark list at the found index and
persists the result, whatever happens to the current recipe's flag. -/
theorem deleteBookmark_fields (st : ModelState) (r : Recipe) :
    ((deleteBookmark st r).bookmarks =
      jsSpliceRemoveOne st.bookmarks
        (jsFindIndex st.bookmarks fun b => b.id = r.id)) ∧
    ((deleteBookmark st r).storage =
      some (jsSpliceRemoveOne st.bookmarks
        (jsFindIndex st.bookmarks fun b => b.id = r.id))) := by
  unfold deleteBookmark storeBookmarks
  rcases hrec : st.recipe with _ | cur
  · simp [hrec]
  · by_cases hid : r.id = cur.id <;> simp [hrec, hid]

/-- Removing with `splice` at the length of the prefix drops exactly the
appended element. -/
theorem jsSpliceRemoveOne_append {α : Type} (l : List α) (x : α) :
    jsSpliceRemoveOne (l ++ [x]) (l.length : Int) = l := by
  simp only [jsSpliceRemoveOne]
  rw [if_neg (by omega)]
  have hmin : min ((l.length : Int)) (((l ++ [x]).length : Int)) =
      (l.length : Int) := by
    simp
  rw [hmin]
  have htn : ((l.length : Int)).toNat = l.length := by omega
  rw [htn, List.take_left]
  have hd : (l ++ [x]).drop (l.length + 1) = [] := by
    refine List.drop_eq_nil_of_le ?_
    simp
  rw [hd, List.append_nil]

/-- A bookmarked recipe with id `a`. -/
def rFirst : Recipe := sampleRecipe "a" 4 []

/-- A different recipe carrying the same id `a`. -/
def rSecond : Recipe := { sampleRecipe "a" 4 [] with title := "second" }

/-- A state already holding `rFirst` as a bookmark. -/
def dupState : ModelState :=
  { sampleState with bookmarks := [rFirst], storage := some [rFirst] }

/-- Counterexample to claim C6: when the store already holds a bookmark
with the same identifier, `addBookmark` then `deleteBookmark` with a new
recipe of that identifier removes the pre-existing entry, not the pushed
one, so the bookmark sequence is not restored. -/
theorem addDelete_duplicate_counterexample :
    (dupState.bookmarks = [rFirst]) ∧
    ((deleteBookmark (addBookmark dupState rSecond) rSecond).bookmarks =
      [rSecond]) ∧
    ((deleteBookmark (addBookmark dupState rSecond) rSecond).bookmarks ≠
      dupState.bookmarks) := by
  refine ⟨rfl, ?_, ?_⟩ <;>
    simp [deleteBookmark, addBookmark, storeBookmarks, jsFindIndex,
      jsSpliceRemoveOne, dupState, sampleState, rFirst, rSecond,
      sampleRecipe, sampleSearch, sampleSummary]

/-- Claim C6 amended: provided no existing bookmark entry already carries
the recipe's identifier, `addBookmark` immediately followed by
`deleteBookmark` with the same identifier restores the bookmark sequence
(and the persisted copy) to its prior contents, and leaves the current
recipe's `bookmarked` flag false whenever `addBookmark` had set it to
true. -/
theorem addBookmark_deleteBookmark_roundtrip (st : ModelState) (r : Recipe)
    (hfresh : ∀ b ∈ st.bookmarks, b.id ≠ r.id) :
    ((deleteBookmark (addBookmark st r) r).bookmarks = st.bookmarks) ∧
    ((deleteBookmark (addBookmark st r) r).storage = some st.bookmarks) ∧
    (∀ cur : Recipe, st.recipe = some cur → r.id = cur.id →
      ∃ cur' : Recipe,
        (deleteBookmark (addBookmark st r) r).recipe = some cur' ∧
        cur'.bookmarked = false) := by
  have hAbm : (addBookmark st r).bookmarks = st.bookmarks ++ [r] :=
    (addBookmark_fields st r).1
  have hidx : jsFindIndex ((addBookmark st r).bookmarks)
      (fun b => b.id = r.id) = (st.bookmarks.length : Int) := by
    rw [hAbm]
    refine jsFindIndex_append_last st.bookmarks r _ ?_ (by simp)
    intro b hb
    simpa using hfresh b hb
  have hbm : (deleteBookmark (addBookmark st r) r).bookmarks =
      st.bookmarks := by
    rw [(deleteBookmark_fields (addBookmark st r) r).1, hidx, hAbm,
      jsSpliceRemoveOne_append]
  refine ⟨hbm, ?_, ?_⟩
  · rw [(deleteBookmark_fields (addBookmark st r) r).2, hidx, hAbm,
      jsSpliceRemoveOne_append]
  · intro cur hcur hid
    have hArec : (addBookmark st r).recipe =
        some { cur with bookmarked := true } := by
      unfold addBookmark storeBookmarks
      simp [hcur, hid]
    refine ⟨{ cur with bookmarked := false }, ?_, rfl⟩
    unfold deleteBookmark storeBookmarks
    simp [hArec, hid]

/-- A fresh recipe with id `b`, bookmarked nowhere. -/
def rOther : Recipe := sampleRecipe "b" 4 []

/-- Witness for the amended C6: adding and deleting a fresh recipe on the
duplicate-free sample state restores the single-bookmark sequence. -/
theorem addBookmark_deleteBookmark_roundtrip_witness :
    (∀ b ∈ dupState.bookmarks, b.id ≠ rOther.id) ∧
    ((deleteBookmark (addBookmark dupState rOther) rOther).bookmarks =
      dupState.bookmarks) ∧
    ((deleteBookmark (addBookmark dupState rOther) rOther).storage =
      some dupState.bookmarks) :=
  ⟨by decide,
    (addBookmark_deleteBookmark_roundtrip dupState rOther (by decide)).1,
    (addBookmark_deleteBookmark_roundtrip dupState rOther (by decide)).2.1⟩

/-- Claim C10: deleting a recipe whose identifier matches no bookmark of a
non-empty bookmark list removes the last entry — `findIndex` yields `-1`
and `splice(-1, 1)` deletes the final element — and persists the
shortened list. -/
theorem deleteBookmark_missing_removes_last (st : ModelState) (r : Recipe)
    (hne : st.bookmarks ≠ []) (habs : ∀ b ∈ st.bookmarks, b.id ≠ r.id) :
    ((deleteBookmark st r).bookmarks = st.bookmarks.dropLast) ∧
    ((deleteBookmark st r).storage = some st.bookmarks.dropLast) := by
  have hidx : jsFindIndex st.bookmarks (fun b => b.id = r.id) = -1 := by
    refine jsFindIndex_eq_neg_one st.bookmarks _ ?_
    intro b hb
    simpa using habs b hb
  have hlen : 1 ≤ st.bookmarks.length := List.length_pos.mpr hne
  have hsplice : jsSpliceRemoveOne st.bookmarks (-1) =
      st.bookmarks.dropLast := by
    simp only [jsSpliceRemoveOne]
    rw [if_pos (by omega)]
    have hmax : max ((st.bookmarks.length : Int) + (-1)) 0 =
        (st.bookmarks.length : Int) - 1 := by
      rw [max_eq_left (by omega)]
      omega
    rw [hmax]
    have htn : ((st.bookmarks.length : Int) - 1).toNat =
        st.bookmarks.length - 1 := by omega
    rw [htn, List.dropLast_eq_take]
    have hstep : st.bookmarks.length - 1 + 1 = st.bookmarks.length := by
      omega
    rw [hstep, List.drop_length, List.append_nil]
  refine ⟨?_, ?_⟩
  · rw [(deleteBookmark_fields st r).1, hidx, hsplice]
  · rw [(deleteBookmark_fields st r).2, hidx, hsplice]

/-- Witness for C10: on the one-bookmark sample state and a recipe with an
absent id, `deleteBookmark` empties and persists the list. -/
theorem deleteBookmark_missing_removes_last_witness :
    (dupState.bookmarks ≠ [] ∧ ∀ b ∈ dupState.bookmarks, b.id ≠ rOther.id) ∧
    ((deleteBookmark dupState rOther).bookmarks =
      dupState.bookmarks.dropLast) ∧
    ((deleteBookmark dupState rOther).storage =
      some dupState.bookmarks.dropLast) :=
  ⟨⟨by decide, by decide⟩,
    deleteBookmark_missing_removes_last dupState rOther (by decide) (by decide)⟩

end Forkify
